import Mathlib

/-!
Verification of the Woolworths search pipeline of the
coles-woolworths-mcp-server repository.

The development shallowly embeds `src/supermarkets/woolworths.py`
(URL formatting, the response normalizer `search_products`) and the
Woolworths tool operation of `main.py` (`get_woolworths_products`:
result limiting and message selection).  Decoded JSON bodies are
modelled by the inductive type `Json`; Python exceptions raised while
walking a decoded body are modelled by the `Except String` monad
(the caught exception text is the `String`); JSON numbers are modelled
as exact rationals (no claim under verification depends on binary
floating-point rounding).
-/

namespace WWS

/-- A decoded JSON value (the result of Python's `response.json()`). -/
inductive Json where
  | null
  | bool (b : Bool)
  | num (q : Rat)
  | str (s : String)
  | arr (elems : List Json)
  | obj (fields : List (String × Json))

/-- Python's `x is None` on a decoded JSON value. -/
def Json.isNull : Json → Bool
  | .null => true
  | _ => false

/-- Key lookup in a JSON object's field list (Python dict lookup;
decoded JSON dicts have no duplicate keys, so first match suffices). -/
def lookupField : List (String × Json) → String → Option Json
  | [], _ => none
  | (k, v) :: rest, key => if k = key then some v else lookupField rest key

/-- Python `d.get(key, default)` on a JSON object's fields: the stored
value when the key is present (even when that value is `null`), else
the default. -/
def getFieldD (fields : List (String × Json)) (key : String) (default : Json) : Json :=
  match lookupField fields key with
  | some v => v
  | none => default

/-- Python truthiness of a decoded JSON value. -/
def truthy : Json → Bool
  | .null => false
  | .bool b => b
  | .num q => q ≠ 0
  | .str s => s ≠ ""
  | .arr xs => !xs.isEmpty
  | .obj fs => !fs.isEmpty

/-- Python's substring test `pat in hay` on strings. -/
def strContains (hay pat : String) : Bool :=
  hay.data.tails.any fun t => pat.data.isPrefixOf t

/-- Python `s.lower()` (ASCII; the source's unit texts are ASCII). -/
def strLower (s : String) : String := ⟨s.data.map Char.toLower⟩

/-- Python `s.split(sep)` with a one-character separator: splits at
every occurrence, keeping empty segments, `[""]` on the empty string. -/
def splitChars (sep : Char) : List Char → List (List Char)
  | [] => [[]]
  | c :: rest =>
    let r := splitChars sep rest
    if c = sep then [] :: r
    else
      match r with
      | [] => [[c]]
      | h :: t => (c :: h) :: t

/-- Python `s.split(sep)` returning strings. -/
def strSplit (s : String) (sep : Char) : List String :=
  (splitChars sep s.data).map fun cs => ⟨cs⟩

/-- Python `s.strip()`: whitespace removed from both ends. -/
def strTrim (s : String) : String :=
  ⟨((s.data.dropWhile Char.isWhitespace).reverse.dropWhile Char.isWhitespace).reverse⟩

/-- Python `query.replace(" ", "+")` (single-character replacement). -/
def replaceSpacePlus (s : String) : String :=
  ⟨s.data.map fun c => if c = ' ' then '+' else c⟩

/-- Python `sep.join(items)`. -/
def joinSep (sep : String) : List String → String
  | [] => ""
  | [x] => x
  | x :: xs => x ++ sep ++ joinSep sep xs

/-- Number of start positions at which `pat` occurs in `hay`
(used to state "the encoded query appears exactly once"). -/
def countOccurrences (hay pat : String) : Nat :=
  (hay.data.tails.filter fun t => pat.data.isPrefixOf t).length

/-- Store constant of `woolworths.py`. -/
def STORE_NAME : String := "woolworths"

/-- Fixed search endpoint of `woolworths.py`. -/
def API_URL : String := "https://www.woolworths.com.au/apis/ui/Search/products"

/-- `format_api_url`: spaces of the query become plus signs, appended as
the `searchTerm` query parameter to the fixed endpoint. -/
def format_api_url (query : String) : String :=
  API_URL ++ "?searchTerm=" ++ replaceSpacePlus query

/-! ### Unit inference (woolworths.py lines 101-146) -/

/-- The substring-priority ladder applied (verbatim, including the
redundant re-tests) to an already lower-cased text by priority tiers 1
(package size) and 3 (cup measure); the empty string means no match,
leaving the running `unit` variable empty. -/
def unitLadder (t : String) : String :=
  if strContains t "kg" then "kg"
  else if strContains t "g" && !strContains t "kg" then "g"
  else if strContains t "l" && !strContains t "ml" then "L"
  else if strContains t "ml" then "ml"
  else if strContains t "each" then "each"
  else if strContains t "pack" || strContains t "pk" then "pack"
  else ""

/-- Target-segment selection of priority tier 2: lower-case the cup
string, split on the slash, take the stripped trailing segment when a
delimiter exists, else the whole lower-cased string. -/
def cupTarget (cs : String) : String :=
  let low := strLower cs
  let parts := strSplit low '/'
  if parts.length > 1 then strTrim (parts.getLastD "") else low

/-- The ladder as repeated by priority tier 2, extended with the
abbreviation test `"ea"` on the `each` branch. -/
def unitLadderEa (t : String) : String :=
  if strContains t "kg" then "kg"
  else if strContains t "g" && !strContains t "kg" then "g"
  else if strContains t "l" && !strContains t "ml" then "L"
  else if strContains t "ml" then "ml"
  else if strContains t "each" || strContains t "ea" then "each"
  else if strContains t "pack" || strContains t "pk" then "pack"
  else ""

/-- Priority tier 2 of the source, on the raw cup string. -/
def unitFromCupString (cs : String) : String :=
  unitLadderEa (cupTarget cs)

/-- Guard `if field and isinstance(field, str)` of each tier: the field
value is a string and truthy (i.e. a non-empty string). -/
def truthyStr : Json → Bool
  | .str s => s ≠ ""
  | _ => false

/-- The string carried by a `Json.str` (tiers read it only under
`truthyStr`). -/
def strOf : Json → String
  | .str s => s
  | _ => ""

/-- Unit inference over the four candidate fields, transcribing the
four-priority chain of `search_products`: each later tier runs only
while the running `unit` is still empty. -/
def inferUnit (psJ csJ cmJ ufJ : Json) : String :=
  let u1 := if truthyStr psJ then unitLadder (strLower (strOf psJ)) else ""
  let u2 := if u1 = "" && truthyStr csJ then unitFromCupString (strOf csJ) else u1
  let u3 := if u2 = "" && truthyStr cmJ then unitLadder (strLower (strOf cmJ)) else u2
  if u3 = "" && truthyStr ufJ then
    (if strLower (strOf ufJ) = "each" then "each" else "")
  else u3

/-! ### Per-product extraction (woolworths.py lines 89-154) -/

/-- Python's `float(x)` on a decimal string (sign, integer part,
fractional part).  Exotic accepted forms (exponents, underscores,
`inf`, `nan`) are not modelled; no claim under verification feeds a
string to the price cast. -/
def parseFloatStr (s0 : String) : Option Rat :=
  let s1 := strTrim s0
  let neg := s1.data.head? = some '-'
  let s : String := match s1.data with
    | '-' :: rest => ⟨rest⟩
    | '+' :: rest => ⟨rest⟩
    | _ => s1
  let val? : Option Rat :=
    match strSplit s '.' with
    | [i] => (String.toNat? i).map fun n => (n : Rat)
    | [i, f] =>
      if i = "" && f = "" then none
      else
        match (if i = "" then some 0 else String.toNat? i),
              (if f = "" then some 0 else String.toNat? f) with
        | some iv, some fv => some ((iv : Rat) + (fv : Rat) / ((10 : Rat) ^ f.length))
        | _, _ => none
    | _ => none
  val?.map fun v => if neg then -v else v

/-- Python's `float(x)` on a decoded JSON value (`x` is never `None`
here: the source guards the cast with `if price is not None`). -/
def pyFloat : Json → Except String Rat
  | .num q => .ok q
  | .bool b => .ok (if b then 1 else 0)
  | .str s =>
    match parseFloatStr s with
    | some q => .ok q
    | none => .error ("could not convert string to float: " ++ s)
  | _ => .error "float() argument must be a string or a real number"

/-- The price fallback chain (lines 95-99): start from `Price`, replace
by `InstorePrice` while the running value is `None`, then by
`WasPrice`.  An absent key and a stored JSON `null` both read back as
Python `None`. -/
def rawPrice (fields : List (String × Json)) : Json :=
  let p0 := getFieldD fields "Price" .null
  let p1 := if p0.isNull then getFieldD fields "InstorePrice" .null else p0
  if p1.isNull then getFieldD fields "WasPrice" .null else p1

/-- Name extraction (line 92):
`product.get("DisplayName", product.get("Name", ""))` — the
`DisplayName` value whenever that key is present (even empty or null),
else the `Name` value, else the empty string. -/
def extractName (fields : List (String × Json)) : Json :=
  match lookupField fields "DisplayName" with
  | some v => v
  | none =>
    match lookupField fields "Name" with
    | some v => v
    | none => .str ""

/-- The canonical product record appended by the normalizer: exactly
the four fields name, price, unit, store.  `name` keeps the raw JSON
value the source stored (the source does not coerce it to text);
`price` is the cast rational or `none`. -/
structure ProductRecord where
  name : Json
  price : Option Rat
  unit : String
  store : String

/-- Normalization of one product object (lines 89-154).  Attribute
access `product.get` on a non-dict raises, surfacing as an error. -/
def extractProduct (product : Json) : Except String ProductRecord :=
  match product with
  | .obj fields =>
    let name := extractName fields
    let praw := rawPrice fields
    let unit := inferUnit (getFieldD fields "PackageSize" (.str ""))
                          (getFieldD fields "CupString" (.str ""))
                          (getFieldD fields "CupMeasure" (.str ""))
                          (getFieldD fields "Unit" (.str ""))
    if praw.isNull then
      .ok { name := name, price := none, unit := unit, store := STORE_NAME }
    else
      match pyFloat praw with
      | .error e => .error e
      | .ok q => .ok { name := name, price := some q, unit := unit, store := STORE_NAME }
  | _ => .error "AttributeError: object has no attribute get"

/-! ### Category flattening (woolworths.py lines 73-154) -/

/-- Python `key in value` (membership test used on the decoded body). -/
def pyHasItem (j : Json) (key : String) : Except String Bool :=
  match j with
  | .obj fs => .ok (lookupField fs key).isSome
  | .arr xs => .ok (xs.any fun e => match e with | .str s => s = key | _ => false)
  | .str s => .ok (strContains s key)
  | _ => .error "TypeError: argument of type is not iterable"

/-- Python subscript `value[key]` with a string key. -/
def pySubscript (j : Json) (key : String) : Except String Json :=
  match j with
  | .obj fs =>
    match lookupField fs key with
    | some v => .ok v
    | none => .error ("KeyError: " ++ key)
  | _ => .error "TypeError: indices must be integers"

/-- Python `d.get(key, default)` where `d` must be a dict. -/
def pyGetD (j : Json) (key : String) (default : Json) : Except String Json :=
  match j with
  | .obj fs => .ok (getFieldD fs key default)
  | _ => .error "AttributeError: object has no attribute get"

/-- Python iteration `for x in v` over a decoded JSON value. -/
def pyIterate (j : Json) : Except String (List Json) :=
  match j with
  | .arr xs => .ok xs
  | .str s => .ok (s.data.map fun c => .str (String.singleton c))
  | .obj fs => .ok (fs.map fun kv => .str kv.1)
  | _ => .error "TypeError: object is not iterable"

/-- The inner `for product in actual_product_list` loop: records
appended in list order; the first exception aborts everything. -/
def extractProdList : List Json → Except String (List ProductRecord)
  | [] => .ok []
  | p :: ps =>
    match extractProduct p with
    | .error e => .error e
    | .ok r =>
      match extractProdList ps with
      | .error e => .error e
      | .ok rest => .ok (r :: rest)

/-- One category entry (lines 77-154): its nested `Products` list when
that value is a list; else the category itself as a one-element product
list when it is a dict carrying `Stockcode` and no `Products` key; else
skipped (`continue`), contributing nothing. -/
def extractCategory (cat : Json) : Except String (List ProductRecord) :=
  match pyGetD cat "Products" .null with
  | .error e => .error e
  | .ok actual =>
    match actual with
    | .arr ps => extractProdList ps
    | _ =>
      match cat with
      | .obj fs =>
        if (lookupField fs "Stockcode").isSome && (lookupField fs "Products").isNone then
          match extractProduct cat with
          | .error e => .error e
          | .ok r => .ok [r]
        else .ok []
      | _ => .ok []

/-- The category loop: records of each category appended in order. -/
def extractCats : List Json → Except String (List ProductRecord)
  | [] => .ok []
  | c :: cs =>
    match extractCategory c with
    | .error e => .error e
    | .ok rs =>
      match extractCats cs with
      | .error e => .error e
      | .ok rest => .ok (rs ++ rest)

/-- Flattening of the whole decoded body (lines 73-154):
`if "Products" in response_data and response_data["Products"]:` then
the category loop over `response_data.get("Products", [])`, else the
empty record list. -/
def extractProducts (body : Json) : Except String (List ProductRecord) :=
  match pyHasItem body "Products" with
  | .error e => .error e
  | .ok hasKey =>
    if hasKey then
      match pySubscript body "Products" with
      | .error e => .error e
      | .ok v =>
        if truthy v then
          match pyGetD body "Products" (.arr []) with
          | .error e => .error e
          | .ok catsJson =>
            match pyIterate catsJson with
            | .error e => .error e
            | .ok cats => extractCats cats
        else .ok []
    else .ok []

/-! ### The search outcome (woolworths.py lines 48-166) -/

/-- The HTTP response handed to `search_products` by `requests.get`:
status code, raw body text, and the result of `response.json()`
(a decoded value, or the decode exception's text). -/
structure HttpResponse where
  status : Nat
  text : String
  body : Except String Json

/-- The dict returned by `search_products`: the `success` shape carries
query, records and count; the `error` shape carries a message and,
for HTTP failures only, the raw response text.  No products key exists
on the error shape. -/
inductive Outcome where
  | success (query : String) (products : List ProductRecord) (product_count : Nat)
  | error (message : String) (response_text : Option String)

/-- `search_products` over an already-performed HTTP exchange: non-200
status short-circuits to the error shape with the raw body preserved;
then the body is decoded and flattened inside `try`, any exception
becoming the error shape with the exception's text; otherwise the
success shape carries the full flattened list and its length. -/
def search_products (query : String) (resp : HttpResponse) : Outcome :=
  if resp.status ≠ 200 then
    .error ("API request failed with status code " ++ toString resp.status) (some resp.text)
  else
    match resp.body with
    | .error e => .error e none
    | .ok data =>
      match extractProducts data with
      | .error e => .error e none
      | .ok ps => .success query ps ps.length

/-! ### The tool operation (main.py lines 102-135) -/

/-- Python list slice `xs[:stop]` with a possibly negative stop. -/
def pySliceTo (xs : List α) (stop : Int) : List α :=
  if stop < 0 then xs.take ((xs.length : Int) + stop).toNat
  else xs.take stop.toNat

/-- The result limiter of `get_woolworths_products` (line 120):
`products[: min(limit, len(products))]`. -/
def limitProducts (products : List ProductRecord) (limit : Int) : List ProductRecord :=
  pySliceTo products (min limit (products.length : Int))

/-- Python `str()` of a decoded JSON value, as interpolated by the
formatting f-string.  Scalars are rendered faithfully; the rendering of
nested lists/dicts is schematic (no claim under verification inspects
it). -/
def pyStr : Json → String
  | .null => "None"
  | .bool b => if b then "True" else "False"
  | .num q => if q.den = 1 then toString q.num ++ ".0" else toString q.num ++ "/" ++ toString q.den
  | .str s => s
  | .arr _ => "[...]"
  | .obj _ => "{...}"

/-- Two-decimal currency formatting `f"${p:.2f}"`.  The rational is
rounded at two decimals; the binary floating-point artifacts of
Python's formatter are not modelled (no claim depends on them). -/
def fmtTwoDec (q : Rat) : String :=
  let n : Int := round (q * 100)
  let a := n.natAbs
  let fp := a % 100
  let fps := if fp < 10 then "0" ++ toString fp else toString fp
  (if n < 0 then "-" else "") ++ toString (a / 100) ++ "." ++ fps

/-- Price rendering of the tool formatter: `N/A` when the record's
price is absent. -/
def renderPrice : Option Rat → String
  | none => "N/A"
  | some q => "$" ++ fmtTwoDec q

/-- One record as formatted by the tool's output loop. -/
def formatProduct (p : ProductRecord) : String :=
  "Name: " ++ pyStr p.name ++ "\nPrice: " ++ renderPrice p.price
    ++ "\nUnit: " ++ (if p.unit = "" then "N/A" else p.unit)
    ++ "\nStore: " ++ p.store

/-- An apostrophe (the tool's messages quote the query with it). -/
def sq : String := String.singleton (Char.ofNat 39)

/-- The single-line no-products message of the tool. -/
def noProductsMessage (query : String) : String :=
  "No products found at Woolworths for " ++ sq ++ query ++ sq ++ "."

/-- `get_woolworths_products` after the backend call: error outcomes
become the error text block; success outcomes are truncated by the
limiter, an empty truncation yields the no-products message, else the
records are formatted and joined. -/
def get_woolworths_products (query : String) (limit : Int) (resp : HttpResponse) : String :=
  match search_products query resp with
  | .error msg rtext =>
    "Error fetching Woolworths products: " ++ msg ++ "\nResponse: " ++ rtext.getD ""
  | .success _ products _ =>
    let kept := limitProducts products limit
    if kept.isEmpty then noProductsMessage query
    else joinSep "\n---\n" (kept.map formatProduct)

/-! ### Specification-side definitions

These follow the words of the specification (not the source) and exist
only to be compared with the source-derived definitions above. -/

/-- Spec wording of the substring-priority ladder, tier result as an
option: "kg → kg; else g (but not kg) → g; else l (but not ml) → L;
else ml → ml; else each → each; else pack or pk → pack", no match
resolving nothing. -/
def ladderSpec (t : String) : Option String :=
  if strContains t "kg" then some "kg"
  else if strContains t "g" && !strContains t "kg" then some "g"
  else if strContains t "l" && !strContains t "ml" then some "L"
  else if strContains t "ml" then some "ml"
  else if strContains t "each" then some "each"
  else if strContains t "pack" || strContains t "pk" then some "pack"
  else none

/-- Spec wording of the tier-2 ladder: the same ladder plus recognizing
`ea` as `each`. -/
def ladderEaSpec (t : String) : Option String :=
  if strContains t "kg" then some "kg"
  else if strContains t "g" && !strContains t "kg" then some "g"
  else if strContains t "l" && !strContains t "ml" then some "L"
  else if strContains t "ml" then some "ml"
  else if strContains t "each" || strContains t "ea" then some "each"
  else if strContains t "pack" || strContains t "pk" then some "pack"
  else none

/-- Spec tier 1: the ladder on the lower-cased package-size text. -/
def tier1Spec (ps : String) : Option String := ladderSpec (strLower ps)

/-- Spec tier 2: the extended ladder on the trailing slash segment of
the lower-cased cup string (the whole string when no delimiter). -/
def tier2Spec (cs : String) : Option String := ladderEaSpec (cupTarget cs)

/-- Spec tier 3: the ladder on the lower-cased cup-measure text. -/
def tier3Spec (cm : String) : Option String := ladderSpec (strLower cm)

/-- Spec tier 4: resolves only on an exact case-insensitive match of
the unit-code field to `each`. -/
def tier4Spec (uf : String) : Option String :=
  if strLower uf = "each" then some "each" else none

/-- Unit inference as the spec words it: four tiers in this fixed
order, each short-circuiting on the first match; the empty string when
no tier resolves. -/
def inferUnitSpec (ps cs cm uf : String) : String :=
  match tier1Spec ps with
  | some u => u
  | none =>
    match tier2Spec cs with
    | some u => u
    | none =>
      match tier3Spec cm with
      | some u => u
      | none => (tier4Spec uf).getD ""

/-- Spec wording of the price fallback: the first of the candidate
values [Price, InstorePrice, WasPrice] that is non-null, else null. -/
def firstPriceSpec (fields : List (String × Json)) : Json :=
  let cands := [getFieldD fields "Price" .null,
                getFieldD fields "InstorePrice" .null,
                getFieldD fields "WasPrice" .null]
  (cands.find? fun j => !j.isNull).getD .null

/-- First element of a value list that is a non-empty string, else the
empty string. -/
def firstNonEmptyText : List Json → String
  | [] => ""
  | j :: rest =>
    match j with
    | .str s => if s = "" then firstNonEmptyText rest else s
    | _ => firstNonEmptyText rest

/-- Spec wording of name extraction: the first of [DisplayName, Name]
that is non-empty, else the empty string (always text). -/
def nameSpec (fields : List (String × Json)) : String :=
  firstNonEmptyText [getFieldD fields "DisplayName" .null, getFieldD fields "Name" .null]

/-- The fixed unit vocabulary of the data-model invariant. -/
def unitVocab : List String := ["kg", "g", "L", "ml", "each", "pack", ""]

/-- The source stores only well-behaved price fields: each of the three
candidate keys is absent, null, or a non-negative number. -/
def priceFieldsOk (fields : List (String × Json)) : Prop :=
  ∀ k ∈ ["Price", "InstorePrice", "WasPrice"],
    match lookupField fields k with
    | some (.num q) => 0 ≤ q
    | some .null => True
    | none => True
    | some _ => False

/-! ### Concrete demonstration inputs -/

/-- A category object that is itself a product (a `Stockcode`, no
nested `Products` key). -/
def demoProd (nm : String) : Json := .obj [("Stockcode", .num 1), ("Name", .str nm)]

/-- A body whose categories are four direct product hits. -/
def demoBody4 : Json :=
  .obj [("Products", .arr [demoProd "A", demoProd "B", demoProd "C", demoProd "D"])]

/-- A successful HTTP exchange carrying `demoBody4`. -/
def demoResp4 : HttpResponse := ⟨200, "", .ok demoBody4⟩

/-- A category object with a nested three-product list. -/
def demoCat3 : Json :=
  .obj [("Products", .arr [.obj [("Name", .str "A")], .obj [("Name", .str "B")],
                           .obj [("Name", .str "C")]])]

/-- A body with one three-product category and one category that is
itself a product. -/
def demoBody31 : Json := .obj [("Products", .arr [demoCat3, demoProd "D"])]

/-- Product fields with a null `Price` and an in-store price of 3.50. -/
def fieldsInstore : List (String × Json) := [("Price", .null), ("InstorePrice", .num 3.5)]

/-- Product fields with every price candidate null. -/
def fieldsAllNull : List (String × Json) := [("Price", .null), ("WasPrice", .null)]

/-- Product fields with an empty `DisplayName` next to a non-empty
`Name`. -/
def fieldsEmptyDN : List (String × Json) := [("DisplayName", .str ""), ("Name", .str "Milk")]

/-- A body whose single product carries a negative source price. -/
def bodyNegPrice : Json :=
  .obj [("Products", .arr [.obj [("Stockcode", .num 1), ("Price", .num (-(2.5 : Rat)))]])]

/-- A successful HTTP exchange whose body holds one good category
followed by a malformed (non-dict) category entry. -/
def respPartial : HttpResponse :=
  ⟨200, "", .ok (.obj [("Products", .arr [demoProd "A", .num 3])])⟩

/-- The record the normalizer produces for a product whose only
populated text field is `Name`. -/
def recOf (nm : String) : ProductRecord := ⟨.str nm, none, "", STORE_NAME⟩

/-- The four records extracted from `demoBody4`. -/
def demo4Records : List ProductRecord := [recOf "A", recOf "B", recOf "C", recOf "D"]

/-- The record extracted from `fieldsInstore`. -/
def recInstore : ProductRecord := ⟨.str "", some (3.5 : Rat), "", STORE_NAME⟩

/-! ### Supporting lemmas -/

theorem ladderSpec_eq (t : String) :
    ladderSpec t = if unitLadder t = "" then none else some (unitLadder t) := by
  simp only [ladderSpec, unitLadder]
  cases h1 : strContains t "kg" <;> cases h2 : strContains t "g" <;>
    cases h3 : strContains t "l" <;> cases h4 : strContains t "ml" <;>
    cases h5 : strContains t "each" <;> cases h6 : strContains t "pack" <;>
    cases h7 : strContains t "pk" <;> simp

theorem ladderEaSpec_eq (t : String) :
    ladderEaSpec t = if unitLadderEa t = "" then none else some (unitLadderEa t) := by
  simp only [ladderEaSpec, unitLadderEa]
  cases h1 : strContains t "kg" <;> cases h2 : strContains t "g" <;>
    cases h3 : strContains t "l" <;> cases h4 : strContains t "ml" <;>
    cases h5 : strContains t "each" <;> cases h6 : strContains t "pack" <;>
    cases h7 : strContains t "pk" <;> cases h8 : strContains t "ea" <;> simp

theorem tier1Spec_eq (ps : String) :
    tier1Spec ps =
      if unitLadder (strLower ps) = "" then none else some (unitLadder (strLower ps)) :=
  ladderSpec_eq _

theorem tier2Spec_eq (cs : String) :
    tier2Spec cs =
      if unitFromCupString cs = "" then none else some (unitFromCupString cs) := by
  simpa [tier2Spec, unitFromCupString] using ladderEaSpec_eq (cupTarget cs)

theorem tier3Spec_eq (cm : String) :
    tier3Spec cm =
      if unitLadder (strLower cm) = "" then none else some (unitLadder (strLower cm)) :=
  ladderSpec_eq _

theorem unitLadder_emptyLower : unitLadder (strLower "") = "" := by decide

theorem unitLadder_empty : unitLadder "" = "" := by decide

theorem ite_self_empty (x : String) : (if x = "" then "" else x) = x := by
  split <;> simp_all

theorem unitFromCupString_empty : unitFromCupString "" = "" := by decide

theorem emptyLower : strLower "" = "" := by decide

theorem inferUnit_str (ps cs cm uf : String) :
    inferUnit (.str ps) (.str cs) (.str cm) (.str uf) =
      (let u1 := unitLadder (strLower ps)
       let u2 := if u1 = "" then unitFromCupString cs else u1
       let u3 := if u2 = "" then unitLadder (strLower cm) else u2
       if u3 = "" then (if strLower uf = "each" then "each" else "") else u3) := by
  simp only [inferUnit, strOf, truthyStr]
  by_cases hps : ps = "" <;> by_cases hcs : cs = "" <;>
    by_cases hcm : cm = "" <;> by_cases huf : uf = "" <;>
    simp_all [unitLadder_emptyLower, unitFromCupString_empty, emptyLower,
              unitLadder_empty, ite_self_empty]

theorem inferUnit_eq_spec (ps cs cm uf : String) :
    inferUnit (.str ps) (.str cs) (.str cm) (.str uf) = inferUnitSpec ps cs cm uf := by
  rw [inferUnit_str]
  simp only [inferUnitSpec, tier1Spec_eq, tier2Spec_eq, tier3Spec_eq, tier4Spec]
  by_cases h1 : unitLadder (strLower ps) = "" <;>
    by_cases h2 : unitFromCupString cs = "" <;>
    by_cases h3 : unitLadder (strLower cm) = "" <;>
    by_cases h4 : strLower uf = "each" <;>
    simp_all

theorem extractProdList_append {ps1 ps2 : List Json} {rs1 rs2 : List ProductRecord}
    (h1 : extractProdList ps1 = .ok rs1) (h2 : extractProdList ps2 = .ok rs2) :
    extractProdList (ps1 ++ ps2) = .ok (rs1 ++ rs2) := by
  induction ps1 generalizing rs1 with
  | nil =>
    simp only [extractProdList] at h1
    cases h1
    simpa using h2
  | cons p ps ih =>
    simp only [extractProdList, List.cons_append] at h1 ⊢
    cases hp : extractProduct p with
    | error e => simp [hp] at h1
    | ok r =>
      simp only [hp] at h1 ⊢
      cases hrest : extractProdList ps with
      | error e => simp [hrest] at h1
      | ok rest =>
        simp only [hrest] at h1
        cases h1
        simp only [List.append_eq]
        rw [ih hrest]
        simp

theorem extractCats_append {cs1 cs2 : List Json} {rs1 rs2 : List ProductRecord}
    (h1 : extractCats cs1 = .ok rs1) (h2 : extractCats cs2 = .ok rs2) :
    extractCats (cs1 ++ cs2) = .ok (rs1 ++ rs2) := by
  induction cs1 generalizing rs1 with
  | nil =>
    simp only [extractCats] at h1
    cases h1
    simpa using h2
  | cons c cs ih =>
    simp only [extractCats, List.cons_append] at h1 ⊢
    cases hc : extractCategory c with
    | error e => simp [hc] at h1
    | ok rs =>
      simp only [hc] at h1 ⊢
      cases hrest : extractCats cs with
      | error e => simp [hrest] at h1
      | ok rest =>
        simp only [hrest] at h1
        cases h1
        simp only [List.append_eq]
        rw [ih hrest]
        simp [List.append_assoc]

theorem extractProdList_forall {P : ProductRecord → Prop}
    (hP : ∀ p r, extractProduct p = .ok r → P r) :
    ∀ ps rs, extractProdList ps = .ok rs → ∀ r ∈ rs, P r := by
  intro ps
  induction ps with
  | nil =>
    intro rs h
    simp only [extractProdList] at h
    cases h
    simp
  | cons p ps ih =>
    intro rs h
    simp only [extractProdList] at h
    cases hp : extractProduct p with
    | error e => simp [hp] at h
    | ok r =>
      simp only [hp] at h
      cases hrest : extractProdList ps with
      | error e => simp [hrest] at h
      | ok rest =>
        simp only [hrest] at h
        cases h
        intro x hx
        rcases List.mem_cons.mp hx with h1 | h1
        · exact h1 ▸ hP p r hp
        · exact ih rest hrest x h1

theorem extractCategory_forall {P : ProductRecord → Prop}
    (hP : ∀ p r, extractProduct p = .ok r → P r) :
    ∀ cat rs, extractCategory cat = .ok rs → ∀ r ∈ rs, P r := by
  intro cat rs h
  unfold extractCategory at h
  split at h
  · simp at h
  · rename_i actual heq
    split at h
    · exact extractProdList_forall hP _ _ h
    · split at h
      · rename_i fs
        split at h
        · split at h
          · simp at h
          · rename_i r hr
            cases h
            intro x hx
            simp at hx
            exact hx ▸ hP _ _ hr
        · cases h
          simp
      · cases h
        simp

theorem extractCats_forall {P : ProductRecord → Prop}
    (hP : ∀ p r, extractProduct p = .ok r → P r) :
    ∀ cats rs, extractCats cats = .ok rs → ∀ r ∈ rs, P r := by
  intro cats
  induction cats with
  | nil =>
    intro rs h
    simp only [extractCats] at h
    cases h
    simp
  | cons c cs ih =>
    intro rs h
    simp only [extractCats] at h
    cases hc : extractCategory c with
    | error e => simp [hc] at h
    | ok rsc =>
      simp only [hc] at h
      cases hrest : extractCats cs with
      | error e => simp [hrest] at h
      | ok rest =>
        simp only [hrest] at h
        cases h
        intro x hx
        rcases List.mem_append.mp hx with h1 | h1
        · exact extractCategory_forall hP c rsc hc x h1
        · exact ih rest hrest x h1

theorem extractProducts_forall {P : ProductRecord → Prop}
    (hP : ∀ p r, extractProduct p = .ok r → P r) :
    ∀ body rs, extractProducts body = .ok rs → ∀ r ∈ rs, P r := by
  intro body rs h
  unfold extractProducts at h
  split at h
  · simp at h
  · split at h
    · split at h
      · simp at h
      · split at h
        · split at h
          · simp at h
          · split at h
            · simp at h
            · exact extractCats_forall hP _ _ h
        · cases h
          simp
    · cases h
      simp

theorem limitProducts_nonneg (ps : List ProductRecord) (n : Int) (hn : 0 ≤ n) :
    limitProducts ps n = ps.take n.toNat := by
  unfold limitProducts pySliceTo
  rw [if_neg (by omega : ¬ min n (ps.length : Int) < 0)]
  rcases le_or_lt n (ps.length : Int) with h | h
  · rw [min_eq_left h]
  · rw [min_eq_right h.le]
    rw [Int.toNat_natCast, List.take_length, List.take_of_length_le (by omega)]

theorem limitProducts_neg (ps : List ProductRecord) (n : Int) (hn : n < 0) :
    limitProducts ps n = ps.take (ps.length - n.natAbs) := by
  unfold limitProducts pySliceTo
  rw [min_eq_left (by omega : n ≤ (ps.length : Int))]
  rw [if_pos hn]
  congr 1
  omega

theorem limitProducts_nil (n : Int) : limitProducts [] n = [] := by
  unfold limitProducts pySliceTo
  split <;> simp

theorem Json.isNull_iff (j : Json) : j.isNull = true ↔ j = .null := by
  cases j <;> simp [Json.isNull]

theorem isNull_null : Json.null.isNull = true := rfl

theorem rawPrice_spec (fields : List (String × Json)) :
    rawPrice fields = firstPriceSpec fields := by
  unfold rawPrice firstPriceSpec
  cases h1 : (getFieldD fields "Price" .null).isNull <;>
    cases h2 : (getFieldD fields "InstorePrice" .null).isNull <;>
    cases h3 : (getFieldD fields "WasPrice" .null).isNull <;>
    simp_all [List.find?, Json.isNull_iff, isNull_null]

theorem fieldOk_cases {fields : List (String × Json)} {k : String}
    (h : match lookupField fields k with
         | some (.num q) => 0 ≤ q
         | some .null => True
         | none => True
         | some _ => False) :
    getFieldD fields k .null = .null ∨
      ∃ q, getFieldD fields k .null = .num q ∧ 0 ≤ q := by
  unfold getFieldD
  cases hl : lookupField fields k with
  | none => simp
  | some v =>
    simp only [hl] at h ⊢
    cases v with
    | null => simp
    | num q => exact Or.inr ⟨q, rfl, h⟩
    | bool b => exact h.elim
    | str s => exact h.elim
    | arr xs => exact h.elim
    | obj fs => exact h.elim

theorem rawPrice_ok {fields : List (String × Json)} (hok : priceFieldsOk fields) :
    rawPrice fields = .null ∨ ∃ q, rawPrice fields = .num q ∧ 0 ≤ q := by
  have hP := fieldOk_cases (hok "Price" (by simp))
  have hI := fieldOk_cases (hok "InstorePrice" (by simp))
  have hW := fieldOk_cases (hok "WasPrice" (by simp))
  rcases hP with h1 | ⟨q1, h1, hq1⟩ <;> rcases hI with h2 | ⟨q2, h2, hq2⟩ <;>
    rcases hW with h3 | ⟨q3, h3, hq3⟩ <;>
    simp_all [rawPrice, Json.isNull]

theorem extractProduct_price_nonneg {fields : List (String × Json)} {r : ProductRecord}
    {q : Rat} (hok : priceFieldsOk fields)
    (h : extractProduct (.obj fields) = .ok r) (hq : r.price = some q) : 0 ≤ q := by
  rcases rawPrice_ok hok with hnull | ⟨q0, hq0, hq0n⟩
  · simp only [extractProduct, hnull, Json.isNull] at h
    cases h
    simp at hq
  · simp only [extractProduct, hq0, Json.isNull, pyFloat] at h
    cases h
    simp at hq
    exact hq ▸ hq0n

theorem unitLadder_mem (t : String) : unitLadder t ∈ unitVocab := by
  unfold unitLadder
  split_ifs <;> simp [unitVocab]

theorem unitLadderEa_mem (t : String) : unitLadderEa t ∈ unitVocab := by
  unfold unitLadderEa
  split_ifs <;> simp [unitVocab]

theorem unitFromCupString_mem (cs : String) : unitFromCupString cs ∈ unitVocab :=
  unitLadderEa_mem _

theorem inferUnit_mem (a b c d : Json) : inferUnit a b c d ∈ unitVocab := by
  simp only [inferUnit]
  repeat' split
  all_goals
    first
      | exact unitLadder_mem _
      | exact unitFromCupString_mem _
      | simp [unitVocab]

theorem extractProduct_inv {p : Json} {r : ProductRecord} (h : extractProduct p = .ok r) :
    r.unit ∈ unitVocab ∧ r.store = STORE_NAME := by
  unfold extractProduct at h
  split at h
  · dsimp only at h
    split at h
    · cases h
      exact ⟨inferUnit_mem _ _ _ _, rfl⟩
    · split at h
      · simp at h
      · cases h
        exact ⟨inferUnit_mem _ _ _ _, rfl⟩
  · simp at h

theorem isPrefixOf_self (l : List Char) : l.isPrefixOf l = true := by
  induction l with
  | nil => rfl
  | cons c cs ih => simp [List.isPrefixOf, ih]

theorem data_append (s t : String) : (s ++ t).data = s.data ++ t.data := by
  cases s
  cases t
  rfl

theorem countOccurrences_suffix_pos (s t : String) :
    1 ≤ countOccurrences (s ++ t) t := by
  unfold countOccurrences
  rw [data_append]
  have ht : t.data ∈ (s.data ++ t.data).tails :=
    (List.mem_tails _ _).2 (List.suffix_append _ _)
  have hmem : t.data ∈ ((s.data ++ t.data).tails.filter fun l => t.data.isPrefixOf l) :=
    List.mem_filter.2 ⟨ht, isPrefixOf_self _⟩
  have := List.ne_nil_of_mem hmem
  exact Nat.succ_le_of_lt (List.length_pos.2 this)

/-! ### The claims -/

/-- C1: unit inference evaluates exactly the four tiers in the fixed
order (package size, cup string, cup measure, unit code), each tier
short-circuiting on its first match, with the documented substring
priorities, the trailing slash-segment selection and the `ea`
abbreviation of tier 2, tier 4's exact case-insensitive `each` match,
and the empty string when no tier resolves: the transcribed inference
chain agrees pointwise with the spec-side tiered ladder, and the spec's
concrete examples hold. -/
theorem C1_unit_inference :
    (∀ ps cs cm uf : String,
        inferUnit (.str ps) (.str cs) (.str cm) (.str uf) = inferUnitSpec ps cs cm uf)
    ∧ inferUnit (.str "1kg") (.str "") (.str "") (.str "") = "kg"
    ∧ inferUnit (.str "500g") (.str "") (.str "") (.str "") = "g"
    ∧ inferUnit (.str "2L") (.str "") (.str "") (.str "") = "L"
    ∧ inferUnit (.str "250ml") (.str "") (.str "") (.str "") = "ml"
    ∧ inferUnit (.str "") (.str "$4.00/1kg") (.str "") (.str "") = "kg"
    ∧ inferUnit (.str "") (.str "$2/ea") (.str "") (.str "") = "each"
    ∧ inferUnit (.str "") (.str "") (.str "") (.str "Each") = "each"
    ∧ inferUnit (.str "") (.str "") (.str "") (.str "") = "" :=
  ⟨inferUnit_eq_spec, by decide, by decide, by decide, by decide,
   by decide, by decide, by decide, by decide⟩

/-- C2: flattening of a decoded body: a category whose nested
`Products` value is a list contributes every product of that list; a
category without the nested key that carries `Stockcode` contributes
itself as a single product; a category object matching neither shape is
skipped silently; on a 200 response the success outcome carries the
full flattened list with `product_count` equal to its length; and a
3-product category next to a direct product category yields exactly 4
records. -/
theorem C2_category_flattening :
    (∀ fs xs, lookupField fs "Products" = some (.arr xs) →
        extractCategory (.obj fs) = extractProdList xs)
    ∧ (∀ fs, lookupField fs "Products" = none → (lookupField fs "Stockcode").isSome →
        extractCategory (.obj fs) = (extractProduct (.obj fs)).map fun r => [r])
    ∧ (∀ fs, (∀ xs, lookupField fs "Products" ≠ some (.arr xs)) →
        ¬(lookupField fs "Products" = none ∧ (lookupField fs "Stockcode").isSome) →
        extractCategory (.obj fs) = .ok [])
    ∧ (∀ query resp data ps, resp.status = 200 → resp.body = .ok data →
        extractProducts data = .ok ps →
        search_products query resp = .success query ps ps.length)
    ∧ (extractProducts demoBody31).map List.length = .ok 4 := by
  refine ⟨?_, ?_, ?_, ?_, by rfl⟩
  · intro fs xs h
    simp [extractCategory, pyGetD, getFieldD, h]
  · intro fs h hs
    cases hp : extractProduct (.obj fs) <;>
      simp [extractCategory, pyGetD, getFieldD, h, hs, hp, Except.map]
  · intro fs hxs hns
    cases hl : lookupField fs "Products" with
    | none =>
      have hsc : (lookupField fs "Stockcode").isSome = false := by
        cases hsc : (lookupField fs "Stockcode").isSome
        · rfl
        · exact absurd ⟨hl, hsc⟩ hns
      simp [extractCategory, pyGetD, getFieldD, hl, hsc]
    | some v =>
      cases v with
      | arr xs => exact absurd hl (hxs xs)
      | null => simp [extractCategory, pyGetD, getFieldD, hl]
      | bool b => simp [extractCategory, pyGetD, getFieldD, hl]
      | num q => simp [extractCategory, pyGetD, getFieldD, hl]
      | str s => simp [extractCategory, pyGetD, getFieldD, hl]
      | obj fs2 => simp [extractCategory, pyGetD, getFieldD, hl]
  · intro query resp data ps h200 hb hx
    simp [search_products, h200, hb, hx]

/-- C2 witness: the three category shapes and the success outcome,
instantiated on concrete inputs. -/
theorem C2_witness :
    extractCategory demoCat3 =
      extractProdList [.obj [("Name", .str "A")], .obj [("Name", .str "B")],
                       .obj [("Name", .str "C")]]
    ∧ extractCategory (demoProd "D") =
        (extractProduct (demoProd "D")).map (fun r => [r])
    ∧ extractCategory (.obj [("Name", .str "misc")]) = .ok []
    ∧ search_products "milk" demoResp4 = .success "milk" demo4Records demo4Records.length :=
  ⟨C2_category_flattening.1 _ _ rfl,
   C2_category_flattening.2.1 _ rfl rfl,
   C2_category_flattening.2.2.1 _ (fun xs h => by simp [lookupField] at h)
     (fun h => by simp [lookupField] at h),
   C2_category_flattening.2.2.2.1 "milk" demoResp4 demoBody4 demo4Records rfl rfl rfl⟩

/-- C3 counterexample: the claim says every limit ≤ 0 yields an empty
truncation and the no-products message, but Python's negative-stop
slice keeps all but the last |limit| records: with four records and
limit −1 the tool returns three formatted records, not the no-products
message. -/
theorem C3_counterexample :
    limitProducts demo4Records (-1) = [recOf "A", recOf "B", recOf "C"]
    ∧ get_woolworths_products "milk" (-1) demoResp4 ≠ noProductsMessage "milk" :=
  ⟨rfl, by decide⟩

/-- C3 (amended): for every limit ≥ 0 the truncation keeps the first
min(limit, length) records in source order, and limit = 0 always yields
the no-products message on a success outcome; a negative limit instead
keeps all but the last |limit| records (so it can still return
products). -/
theorem C3_limit_amended :
    (∀ ps (n : Int), 0 ≤ n → limitProducts ps n = ps.take n.toNat)
    ∧ (∀ ps, limitProducts ps 0 = [])
    ∧ (∀ ps (n : Int), n < 0 → limitProducts ps n = ps.take (ps.length - n.natAbs))
    ∧ (∀ query resp ps c, search_products query resp = .success query ps c →
        get_woolworths_products query 0 resp = noProductsMessage query) := by
  refine ⟨limitProducts_nonneg, ?_, limitProducts_neg, ?_⟩
  · intro ps
    rw [limitProducts_nonneg ps 0 le_rfl]
    simp
  · intro query resp ps c h
    simp only [get_woolworths_products, h]
    rw [limitProducts_nonneg ps 0 le_rfl]
    simp

/-- C3 witness: the amended statement at concrete inputs. -/
theorem C3_witness :
    limitProducts demo4Records 2 = demo4Records.take 2
    ∧ limitProducts demo4Records (-1) =
        demo4Records.take (demo4Records.length - (-1 : Int).natAbs)
    ∧ get_woolworths_products "milk" 0 demoResp4 = noProductsMessage "milk" :=
  ⟨C3_limit_amended.1 demo4Records 2 (by norm_num),
   C3_limit_amended.2.2.1 demo4Records (-1) (by norm_num),
   C3_limit_amended.2.2.2 "milk" demoResp4 demo4Records demo4Records.length rfl⟩

/-- C4: a record's price is the first non-null of Price, InstorePrice,
WasPrice, cast to a number, and absent when all three are null; a null
Price with InstorePrice 3.50 resolves to 3.50; an absent price renders
as N/A. -/
theorem C4_price_fallback :
    (∀ fields, rawPrice fields = firstPriceSpec fields)
    ∧ (∀ fields r, extractProduct (.obj fields) = .ok r →
        ((rawPrice fields).isNull → r.price = none)
        ∧ (∀ q, rawPrice fields = .num q → r.price = some q))
    ∧ (extractProduct (.obj fieldsInstore)).map (fun r => r.price) = .ok (some (3.5 : Rat))
    ∧ (extractProduct (.obj fieldsAllNull)).map (fun r => r.price) = .ok none
    ∧ renderPrice none = "N/A" := by
  refine ⟨rawPrice_spec, ?_, by rfl, by rfl, by rfl⟩
  intro fields r h
  constructor
  · intro hnull
    simp only [extractProduct, hnull, if_true] at h
    cases h
    rfl
  · intro q hq
    simp only [extractProduct, hq, Json.isNull, pyFloat, Bool.false_eq_true,
               if_false] at h
    cases h
    rfl

/-- C4 witness: the fallback applied to the concrete in-store fields. -/
theorem C4_witness : recInstore.price = some (3.5 : Rat) :=
  (C4_price_fallback.2.1 fieldsInstore recInstore rfl).2 (3.5 : Rat) rfl

/-- C5 counterexample: the claim says the name is the first non-empty
of DisplayName and Name, but the source falls back on key absence, not
emptiness: with an empty DisplayName next to Name "Milk" the extracted
name is the empty string, not "Milk". -/
theorem C5_counterexample :
    extractName fieldsEmptyDN = .str ""
    ∧ nameSpec fieldsEmptyDN = "Milk"
    ∧ Json.str "" ≠ Json.str "Milk" :=
  ⟨rfl, rfl, by simp⟩

/-- C5 (amended): the record's name is the DisplayName value whenever
that key is present (even when empty or null), else the Name value when
that key is present, else the empty string; it is therefore not
guaranteed to be text when the source stores a non-string value. -/
theorem C5_name_amended :
    ∀ fields : List (String × Json),
      (∀ v, lookupField fields "DisplayName" = some v → extractName fields = v)
      ∧ (lookupField fields "DisplayName" = none →
          ∀ v, lookupField fields "Name" = some v → extractName fields = v)
      ∧ (lookupField fields "DisplayName" = none → lookupField fields "Name" = none →
          extractName fields = .str "") := by
  intro fields
  refine ⟨?_, ?_, ?_⟩
  · intro v h
    simp [extractName, h]
  · intro h v hv
    simp [extractName, h, hv]
  · intro h hv
    simp [extractName, h, hv]

/-- C5 witness: the amended name rule at the concrete counterexample
fields. -/
theorem C5_witness : extractName fieldsEmptyDN = .str "" :=
  (C5_name_amended fieldsEmptyDN).1 (.str "") rfl

/-- C6 counterexample: the claim says a present price is non-negative,
but the normalizer does not range-check: a source product with Price
−2.5 yields a record with a negative price. -/
theorem C6_counterexample :
    (extractProducts bodyNegPrice).map (fun rs => rs.map fun r => r.price)
      = .ok [some (-(2.5 : Rat))]
    ∧ (-(2.5 : Rat)) < 0 :=
  ⟨rfl, by norm_num⟩

/-- C6 (amended): every record the normalizer constructs has exactly
the four fields of `ProductRecord`; its unit is always drawn from the
fixed vocabulary and its store is the backend constant; and its price,
when present, is non-negative whenever the source price fields are
(the cast is exact, but no range check is performed). -/
theorem C6_invariants_amended :
    (∀ body rs, extractProducts body = .ok rs →
        ∀ r ∈ rs, r.unit ∈ unitVocab ∧ r.store = STORE_NAME)
    ∧ (∀ fields r q, priceFieldsOk fields → extractProduct (.obj fields) = .ok r →
        r.price = some q → 0 ≤ q) :=
  ⟨extractProducts_forall fun _ _ h => extractProduct_inv h,
   fun _ _ _ hok h hq => extractProduct_price_nonneg hok h hq⟩

/-- C6 witness: the invariants at a concrete body and concrete
well-behaved price fields. -/
theorem C6_witness :
    ((recOf "A").unit ∈ unitVocab ∧ (recOf "A").store = STORE_NAME)
    ∧ (0 : Rat) ≤ (3.5 : Rat) :=
  ⟨C6_invariants_amended.1 demoBody4 demo4Records rfl (recOf "A") (by simp [demo4Records]),
   C6_invariants_amended.2 fieldsInstore recInstore (3.5 : Rat)
     (by
        intro k hk
        simp only [List.mem_cons, List.not_mem_nil, or_false] at hk
        rcases hk with rfl | rfl | rfl
        all_goals simp [lookupField, fieldsInstore]
        all_goals norm_num)
     rfl rfl⟩

/-- C7: `search_products` returns an error outcome exactly when the
HTTP status is not 200 (with the status-derived message and the raw
body preserved) or when an exception occurs while parsing (with the
exception's text); a parse failure discards the whole response — the
error outcome carries no records even when some were already extracted
— and no exception escapes (the function is total). -/
theorem C7_error_outcomes :
    (∀ query resp,
      (resp.status ≠ 200 →
        search_products query resp =
          .error ("API request failed with status code " ++ toString resp.status)
                 (some resp.text))
      ∧ (∀ e, resp.status = 200 → resp.body = .error e →
          search_products query resp = .error e none)
      ∧ (∀ data e, resp.status = 200 → resp.body = .ok data →
          extractProducts data = .error e → search_products query resp = .error e none)
      ∧ ((∃ m rt, search_products query resp = .error m rt) ↔
          resp.status ≠ 200 ∨ (∃ e, resp.body = .error e) ∨
            ∃ data e, resp.body = .ok data ∧ extractProducts data = .error e))
    ∧ search_products "q" respPartial =
        .error "AttributeError: object has no attribute get" none := by
  refine ⟨?_, by rfl⟩
  intro query resp
  refine ⟨?_, ?_, ?_, ?_⟩
  · intro h
    simp [search_products, h]
  · intro e h200 hb
    simp [search_products, h200, hb]
  · intro data e h200 hb hx
    simp [search_products, h200, hb, hx]
  · constructor
    · rintro ⟨m, rt, h⟩
      by_cases h200 : resp.status = 200
      · cases hb : resp.body with
        | error e => exact Or.inr (Or.inl ⟨e, rfl⟩)
        | ok data =>
          cases hx : extractProducts data with
          | error e => exact Or.inr (Or.inr ⟨data, e, rfl, hx⟩)
          | ok ps => simp [search_products, h200, hb, hx] at h
      · exact Or.inl h200
    · rintro (h | ⟨e, he⟩ | ⟨data, e, hb, hx⟩)
      · exact ⟨"API request failed with status code " ++ toString resp.status,
               some resp.text, by simp [search_products, h]⟩
      · by_cases h200 : resp.status = 200
        · exact ⟨e, none, by simp [search_products, h200, he]⟩
        · exact ⟨"API request failed with status code " ++ toString resp.status,
                 some resp.text, by simp [search_products, h200]⟩
      · by_cases h200 : resp.status = 200
        · exact ⟨e, none, by simp [search_products, h200, hb, hx]⟩
        · exact ⟨"API request failed with status code " ++ toString resp.status,
                 some resp.text, by simp [search_products, h200]⟩

/-- C7 witness: a concrete non-200 exchange produces the error outcome
with the status-derived message and the raw body preserved verbatim. -/
theorem C7_witness :
    search_products "q" (⟨500, "body", .ok .null⟩ : HttpResponse) =
      .error ("API request failed with status code " ++ toString (500 : Nat))
             (some "body") :=
  ((C7_error_outcomes.1 "q" ⟨500, "body", .ok .null⟩).1 (by norm_num))

/-- C8 counterexample: the claim says the encoded query appears in the
formatted URL exactly once, but a query that also occurs in the fixed
endpoint path, such as "products", appears twice. -/
theorem C8_counterexample :
    countOccurrences (format_api_url "products") "products" = 2
    ∧ countOccurrences (format_api_url "products") "products" ≠ 1 :=
  ⟨by decide, by decide⟩

/-- C8 (amended): the formatted URL is exactly the fixed endpoint with
the space-to-plus encoded query appended as the searchTerm parameter,
and the encoded query always appears in the URL (as its suffix) at
least once — exactly once for queries that do not also occur elsewhere
in the URL, such as "milk", but not for every query. -/
theorem C8_url_amended :
    (∀ q, format_api_url q = API_URL ++ "?searchTerm=" ++ replaceSpacePlus q)
    ∧ (∀ q, 1 ≤ countOccurrences (format_api_url q) (replaceSpacePlus q))
    ∧ countOccurrences (format_api_url "milk") "milk" = 1 := by
  refine ⟨fun q => rfl, fun q => ?_, by decide⟩
  exact countOccurrences_suffix_pos (API_URL ++ "?searchTerm=") (replaceSpacePlus q)

/-- C9: an empty result is not an error: a body whose `Products` key is
absent, null, or an empty list — or whose extraction yields no records
— produces a success outcome with an empty list, and the tool then
returns the single-line no-products message embedding the query. -/
theorem C9_empty_not_error :
    (∀ fs, lookupField fs "Products" = none → extractProducts (.obj fs) = .ok [])
    ∧ (∀ fs, lookupField fs "Products" = some .null → extractProducts (.obj fs) = .ok [])
    ∧ (∀ fs, lookupField fs "Products" = some (.arr []) → extractProducts (.obj fs) = .ok [])
    ∧ (∀ query resp data, resp.status = 200 → resp.body = .ok data →
        extractProducts data = .ok [] →
        search_products query resp = .success query [] 0
        ∧ ∀ limit, get_woolworths_products query limit resp = noProductsMessage query) := by
  refine ⟨?_, ?_, ?_, ?_⟩
  · intro fs h
    simp [extractProducts, pyHasItem, h]
  · intro fs h
    simp [extractProducts, pyHasItem, pySubscript, h, truthy]
  · intro fs h
    simp [extractProducts, pyHasItem, pySubscript, h, truthy]
  · intro query resp data h200 hb hx
    have hs : search_products query resp = .success query [] 0 := by
      simp [search_products, h200, hb, hx]
    refine ⟨hs, ?_⟩
    intro limit
    simp [get_woolworths_products, hs, limitProducts_nil]

/-- C9 witness: an empty nested product list yields the success outcome
and the no-products message. -/
theorem C9_witness :
    extractProducts (.obj [("Products", .arr [])]) = .ok []
    ∧ get_woolworths_products "soap" 10 (⟨200, "", .ok (.obj [("Products", .arr [])])⟩) =
        noProductsMessage "soap" :=
  ⟨C9_empty_not_error.2.2.1 _ rfl,
   (C9_empty_not_error.2.2.2 "soap" ⟨200, "", .ok (.obj [("Products", .arr [])])⟩
      (.obj [("Products", .arr [])]) rfl rfl rfl).2 10⟩

/-- C10: flattening preserves source order — the record list is the
in-order concatenation of per-category contributions, which are
themselves the in-order contributions of the nested product lists — so
after a non-negative limit the kept records are exactly the first N in
source order. -/
theorem C10_order_preserved :
    (∀ cs1 cs2 rs1 rs2, extractCats cs1 = .ok rs1 → extractCats cs2 = .ok rs2 →
        extractCats (cs1 ++ cs2) = .ok (rs1 ++ rs2))
    ∧ (∀ ps1 ps2 rs1 rs2, extractProdList ps1 = .ok rs1 → extractProdList ps2 = .ok rs2 →
        extractProdList (ps1 ++ ps2) = .ok (rs1 ++ rs2))
    ∧ (∀ ps (n : Int), 0 ≤ n → limitProducts ps n = ps.take n.toNat) :=
  ⟨fun _ _ _ _ h1 h2 => extractCats_append h1 h2,
   fun _ _ _ _ h1 h2 => extractProdList_append h1 h2,
   limitProducts_nonneg⟩

/-- C10 witness: order-preserving concatenation and truncation at
concrete inputs. -/
theorem C10_witness :
    extractCats ([demoCat3] ++ [demoProd "D"]) =
      .ok ([recOf "A", recOf "B", recOf "C"] ++ [recOf "D"])
    ∧ limitProducts demo4Records 2 = demo4Records.take (2 : Int).toNat :=
  ⟨C10_order_preserved.1 [demoCat3] [demoProd "D"] _ _ rfl rfl,
   C10_order_preserved.2.2 demo4Records 2 (by norm_num)⟩

end WWS
